import Mathlib

/-!
Verification development for the `restclient` Go package (package `restclient`,
files `restclient.go`; the authoritative revision is the one carrying the
`Timestamp`, `Userinfo` and `complain` features).

The embedding is shallow: each Go function of the package is translated into an
executable Lean definition.  External capabilities that the package merely
consumes — the JSON codec (`encoding/json`), URL parsing (`net/url.Parse`),
method validation inside `http.NewRequest`, the transport (`http.Client.Do`),
and the clock (`time.Now`) — are modelled as parameters gathered in `Env` and
`Client`, exactly as the package's own spec treats them (opaque capabilities).
Go nil-pointer dereference is modelled explicitly: a dereference of a value
that is `none` yields the `DoResult.panicked` outcome.
-/

namespace Restclient

/-- Dynamic values stored in Go `interface{}` slots (`Data`, `Result`, `Error`).
`Val.null` models the Go `nil` interface value. -/
inductive Val where
  | null
  | vstr (s : String)
  | vint (n : Int)
deriving DecidableEq

/-- Model of `net/url.Values`: an association list from keys to value lists,
with at most one entry per key (Go's `map[string][]string`). -/
abbrev Values := List (String × List String)

/-- Model of `url.Values.Set`: replace the key's value list with the single
given value. -/
def Values.set : Values → String → String → Values
  | [], k, v => [(k, [v])]
  | (k', vs) :: rest, k, v =>
    if k' = k then (k, [v]) :: rest else (k', vs) :: Values.set rest k v

/-- Model of `url.Values.Add`: append the value to the key's value list. -/
def Values.add : Values → String → String → Values
  | [], k, v => [(k, [v])]
  | (k', vs) :: rest, k, v =>
    if k' = k then (k', vs ++ [v]) :: rest else (k', vs) :: Values.add rest k v

/-- Look up the value list stored for a key (Go's `v[key]`). -/
def Values.get : Values → String → List String
  | [], _ => []
  | (k', vs) :: rest, k => if k' = k then vs else Values.get rest k

/-- Insertion step of the key sort performed by `url.Values.Encode`. -/
def Values.sortInsert (p : String × List String) : Values → Values
  | [] => [p]
  | q :: rest => if p.1 ≤ q.1 then p :: q :: rest else q :: Values.sortInsert p rest

/-- Sort the entries by key, as `url.Values.Encode` does before serialising. -/
def Values.sortByKey : Values → Values
  | [] => []
  | p :: rest => Values.sortInsert p (Values.sortByKey rest)

/-- Model of `url.Values.Encode`: keys in sorted order, each value rendered as
`key=value`, joined by ampersands.  Percent-escaping is the `net/url`
package's concern and is not modelled. -/
def Values.encode (vs : Values) : String :=
  String.intercalate "&"
    (((Values.sortByKey vs).map (fun p => p.2.map (fun v => p.1 ++ "=" ++ v))).flatten)

/-- Model of `url.ParseQuery` as used by `u.Query()`: split the raw query on
ampersands, split each piece at the first equals sign, and accumulate with
`Values.add`.  Percent-unescaping is not modelled. -/
def parseQuery (s : String) : Values :=
  if s = "" then []
  else
    (s.splitOn "&").foldl
      (fun acc piece =>
        match piece.splitOn "=" with
        | [] => acc
        | k :: rest => Values.add acc k (String.intercalate "=" rest))
      []

/-- Model of a parsed `net/url.URL`.  The scheme, host and path — which `Do`
never modifies — are collapsed into `base`; the query string, which `Do` does
rewrite, is kept explicit. -/
structure URL where
  base : String
  rawQuery : String
deriving DecidableEq

/-- Model of `url.URL.String` restricted to the parts the package touches. -/
def URL.renderString (u : URL) : String :=
  if u.rawQuery = "" then u.base else u.base ++ "?" ++ u.rawQuery

/-- Model of `net/http.Header`: a list of key/value pairs in insertion order. -/
abbrev Header := List (String × String)

/-- Model of `http.Header.Add`: append the pair. -/
def Header.add (h : Header) (k v : String) : Header := h ++ [(k, v)]

/-- Model of `http.Header.Get`: first value for the key, or the empty string. -/
def Header.get (h : Header) (k : String) : String :=
  match h.find? (fun p => p.1 == k) with
  | some p => p.2
  | none => ""

/-- Model of the outgoing `http.Request` built by `Do`: method, rendered URL,
headers, optional body bytes, and the basic-auth credentials installed by
`SetBasicAuth` (base64 rendering is the `net/http` package's concern). -/
structure HttpRequest where
  method : String
  url : String
  header : Header
  body : Option String
  basicAuth : Option (String × String)
deriving DecidableEq

/-- Model of `http.Request.Header.Add` on a request value. -/
def HttpRequest.addHeader (r : HttpRequest) (k v : String) : HttpRequest :=
  { r with header := Header.add r.header k v }

/-- Model of the transport's reply (`*http.Response` plus the outcome of
`ioutil.ReadAll` on its body): status code, optional body-read error, and the
body bytes read. -/
structure Reply where
  status : Nat
  bodyErr : Option String
  body : String
deriving DecidableEq

/-- Outcome of `http.Client.Do`.  On failure Go usually returns a nil
`*http.Response`; the documented exception (a failed redirect check) can
return a non-nil response together with the error, hence the `Option Reply`
carried by the failure case. -/
inductive TransportResult where
  | success (r : Reply)
  | failure (e : String) (partialResp : Option Reply)

/-- Model of the JSON codec capability (`encoding/json`), consumed as opaque:
`marshal` may fail on non-serialisable values; `decodeTyped` decodes bytes
into the shape of the current destination value and fails if the shape does
not match (decoding is modelled as atomic: on failure the destination is
unchanged); `decodeGeneric` decodes into a fresh untyped container. -/
structure Codec where
  marshal : Val → Option String
  decodeTyped : String → Val → Option Val
  decodeGeneric : String → Option Val

/-- Ambient external capabilities: `url.Parse`, the method validation done by
`http.NewRequest`, the JSON codec, and the current clock reading (`time.Now`,
available to the code though never called by it). -/
structure Env where
  parseUrl : String → Option URL
  methodOk : String → Bool
  codec : Codec
  now : Nat

/-- Model of the `Request` struct: the declarative request descriptor. -/
structure Request where
  url : String
  method : String
  userinfo : Option (String × String)
  params : Option (List (String × String))
  headers : Option (List (String × String))
  data : Val
  result : Val
  error : Val
deriving DecidableEq

/-- Model of the `Response` struct.  `timestamp` is a clock reading as a
natural number; the Go zero `time.Time` is modelled as `0`.  `request` models
the `*Request` back-reference, `none` being the nil pointer. -/
structure Response where
  status : Nat
  timestamp : Nat
  result : Val
  error : Val
  rawText : String
  request : Option Request
deriving DecidableEq

/-- Model of the `Client` struct: the transport capability held through
`HttpClient`, and the `DefaultError` destination template. -/
structure Client where
  transport : HttpRequest → TransportResult
  defaultError : Val

/-- Overall outcome of a call to `Client.Do`: a normal `(resp, err)` return,
or a runtime panic (nil-pointer dereference). -/
inductive DoResult where
  | ret (resp : Option Response) (err : Option String)
  | panicked

/-- Model of `Client.unmarshal`.  In Go the parameter `v` is a pointer
received by value; on the fallback path the assignment `v = new(interface{})`
rebinds only the local copy of that pointer, so the second `json.Unmarshal`
writes into a fresh container that the caller never sees.  The function
returns the value now visible through the caller's pointer together with the
error returned to the caller. -/
def Client.unmarshal (codec : Codec) (data : String) (v : Val) : Val × Option String :=
  match codec.decodeTyped data v with
  | some v' => (v', none)
  | none =>
    match codec.decodeGeneric data with
    | some _ => (v, none)
    | none => (v, some "json: generic decode failed")

/-- Model of the descriptor defaulting at the top of `Do`: if the
descriptor's `Error` slot is nil, substitute the client's `DefaultError`. -/
def applyDefaultError (c : Client) (req : Request) : Request :=
  if req.error = Val.null then { req with error := c.defaultError } else req

/-- Fold of `url.Values.Set` over the caller-supplied parameters, modelling
the `for k, v := range req.Params { vals.Set(k, v) }` loop.  Go iterates the
map in unspecified order; since `Set` touches only its own key, the result is
order-independent when the keys are distinct. -/
def mergeParams (vals : Values) (ps : List (String × String)) : Values :=
  ps.foldl (fun acc p => Values.set acc p.1 p.2) vals

/-- Model of the query-parameter step of `Do`: when the method is `GET` and
`Params` is non-nil, re-encode the URL's query as the merge of its parsed
query with the supplied parameters; otherwise leave the URL untouched. -/
def applyParams (method : String) (params : Option (List (String × String)))
    (u : URL) : URL :=
  if method = "GET" ∧ params.isSome then
    { u with
      rawQuery := Values.encode (mergeParams (parseQuery u.rawQuery) (params.getD [])) }
  else u

/-- Model of `http.NewRequest`: validate the method (via the `Env` oracle) and
build a request with an empty header map; a nil request is returned with the
error on failure, modelled by `none`. -/
def newRequest (env : Env) (m urlStr : String) (body : Option String) :
    Option HttpRequest :=
  if env.methodOk m then
    some { method := m, url := urlStr, header := [], body := body, basicAuth := none }
  else none

/-- Model of the two header/auth touches that follow request construction in
`Do`: default the `Accept` header to `application/json` when unset, and
install basic-auth credentials when `Userinfo` is supplied. -/
def finishHeaders (req : Request) (hReq : HttpRequest) : HttpRequest :=
  let hReq1 :=
    if Header.get hReq.header "Accept" = "" then
      { hReq with header := Header.add hReq.header "Accept" "application/json" }
    else hReq
  match req.userinfo with
  | some up => { hReq1 with basicAuth := some up }
  | none => hReq1

/-- Outcome of the request-building prefix of `Do` (URL parse through basic
auth): an early error return, a panic, or a built transport message. -/
inductive BuildOut where
  | failed (e : String)
  | panicked
  | built (hReq : HttpRequest)
deriving DecidableEq

/-- Model of the request-building prefix of `Do`.  In the branch with a
non-nil `Data`, the code runs `hReq, err = http.NewRequest(...)` and then
immediately `hReq.Header.Add("Content-Type", "application/json")` before
checking `err`; when `NewRequest` failed, `hReq` is nil and the `Add`
dereferences it, which is a panic.  In the nil-`Data` branch the error is
checked before any dereference. -/
def buildMsg (env : Env) (req : Request) : BuildOut :=
  match env.parseUrl req.url with
  | none => BuildOut.failed "url parse error"
  | some u0 =>
    let u := applyParams req.method req.params u0
    let m := req.method
    if req.data = Val.null then
      match newRequest env m u.renderString none with
      | none => BuildOut.failed "new request error"
      | some hReq => BuildOut.built (finishHeaders req hReq)
    else
      match env.codec.marshal req.data with
      | none => BuildOut.failed "marshal error"
      | some b =>
        match newRequest env m u.renderString (some b) with
        | none => BuildOut.panicked
        | some hReq =>
          BuildOut.built (finishHeaders req (hReq.addHeader "Content-Type" "application/json"))

/-- Model of the response-resolution suffix of `Do` (from the construction of
the `Response` literal through the return): the `Response` literal sets only
`Status`, `Result` and `Error`, leaving `Timestamp`, `RawText` and `Request`
at their Go zero values; a body-read error returns the partial response with
the error; an empty body short-circuits with no decode; otherwise exactly one
of the two destinations is passed to `unmarshal`, selected by status class. -/
def handleReply (codec : Codec) (req : Request) (r : Reply) :
    Option Response × Option String :=
  let resp : Response :=
    { status := r.status, timestamp := 0, result := req.result, error := req.error,
      rawText := "", request := none }
  match r.bodyErr with
  | some e => (some resp, some e)
  | none =>
    let resp1 := { resp with rawText := r.body }
    if r.body = "" then (some resp1, none)
    else if 200 ≤ r.status ∧ r.status < 300 then
      let p := Client.unmarshal codec r.body resp1.result
      (some { resp1 with result := p.1 }, p.2)
    else
      let p := Client.unmarshal codec r.body resp1.error
      (some { resp1 with error := p.1 }, p.2)

/-- Model of `Client.Do`: default the error destination, build the message,
dispatch it, and resolve the reply.  On transport failure the code calls
`complain(err, hResp.StatusCode, "")`; when the failed transport returned a
nil response (the usual case, e.g. connection refused) that field access
dereferences nil and panics, and only when a partial response accompanies the
error (failed redirect check) does the call log and return the error. -/
def Client.Do (env : Env) (c : Client) (req : Request) : DoResult :=
  let req1 := applyDefaultError c req
  match buildMsg env req1 with
  | BuildOut.failed e => DoResult.ret none (some e)
  | BuildOut.panicked => DoResult.panicked
  | BuildOut.built hReq =>
    match c.transport hReq with
    | TransportResult.failure e partialResp =>
      match partialResp with
      | none => DoResult.panicked
      | some _ => DoResult.ret none (some e)
    | TransportResult.success r =>
      let p := handleReply env.codec req1 r
      DoResult.ret p.1 p.2

/-! Concrete instances of the external capabilities, used to evaluate the
model on closed inputs. -/

/-- A codec whose decodes always succeed, producing a string value carrying
the raw bytes, and whose marshal always succeeds. -/
def wCodec : Codec :=
  { marshal := fun _ => some "enc"
    decodeTyped := fun d _ => some (Val.vstr d)
    decodeGeneric := fun d => some (Val.vstr d) }

/-- An environment whose URL parsing and method validation always succeed. -/
def wEnv : Env :=
  { parseUrl := fun s => some { base := s, rawQuery := "" }
    methodOk := fun _ => true
    codec := wCodec
    now := 42 }

/-- A plain GET request descriptor with every optional field unset. -/
def wReq : Request :=
  { url := "http://api.test/items", method := "GET", userinfo := none,
    params := none, headers := none, data := Val.null,
    result := Val.null, error := Val.null }

/-- A codec for which typed decoding fails while generic decoding succeeds
with a distinguished value. -/
def cexCodec : Codec :=
  { marshal := fun _ => none
    decodeTyped := fun _ _ => none
    decodeGeneric := fun _ => some (Val.vstr "generic") }

/-- A client whose transport fails like a refused connection: an error with a
nil response, the usual outcome of a network-level failure. -/
def cexClientRefused : Client :=
  { transport := fun _ => TransportResult.failure "connection refused" none
    defaultError := Val.null }

/-- A client whose transport succeeds with status 200 and an empty body. -/
def wClientEmpty : Client :=
  { transport := fun _ => TransportResult.success { status := 200, bodyErr := none, body := "" }
    defaultError := Val.null }

/-- An environment that accepts only the method string GET, modelling the
method validation performed by `http.NewRequest`. -/
def cexEnvBadMethod : Env :=
  { parseUrl := fun s => some { base := s, rawQuery := "" }
    methodOk := fun m => m == "GET"
    codec := wCodec
    now := 42 }

/-- A descriptor with a method `http.NewRequest` rejects and a non-nil
payload. -/
def cexReqBadMethod : Request :=
  { wReq with method := "BAD METHOD", data := Val.vstr "payload" }

/-- Claim C1 (counterexample): with a codec for which the typed decode fails
and the generic decode succeeds with the value "generic", the value visible
through the caller's destination after `unmarshal` is not that generic value
(the fallback decode wrote into a rebound local pointer), even though no
error is returned. -/
theorem C1_generic_not_returned :
    cexCodec.decodeTyped "body" (Val.vint 0) = none ∧
    cexCodec.decodeGeneric "body" = some (Val.vstr "generic") ∧
    (Client.unmarshal cexCodec "body" (Val.vint 0)).1 ≠ Val.vstr "generic" ∧
    (Client.unmarshal cexCodec "body" (Val.vint 0)).2 = none := by
  refine ⟨rfl, rfl, ?_, rfl⟩
  decide

/-- Claim C1 (amended): if decoding into the declared destination shape
fails, the failure is not propagated: a generic decode is attempted into a
fresh local container whose value is discarded, the caller's destination is
returned unchanged, and an error is surfaced if and only if even the generic
decode fails. -/
theorem C1_fallback_absorbs (codec : Codec) (data : String) (v : Val)
    (hfail : codec.decodeTyped data v = none) :
    (Client.unmarshal codec data v).1 = v ∧
    ((Client.unmarshal codec data v).2 = none ↔ (codec.decodeGeneric data).isSome) := by
  unfold Client.unmarshal
  rw [hfail]
  cases hg : codec.decodeGeneric data <;> simp

/-- Witness for C1_fallback_absorbs at a concrete codec and input. -/
theorem C1_fallback_absorbs_witness :
    cexCodec.decodeTyped "body" (Val.vint 0) = none ∧
    ((Client.unmarshal cexCodec "body" (Val.vint 0)).1 = Val.vint 0 ∧
     ((Client.unmarshal cexCodec "body" (Val.vint 0)).2 = none ↔
       (cexCodec.decodeGeneric "body").isSome)) :=
  ⟨rfl, C1_fallback_absorbs cexCodec "body" (Val.vint 0) rfl⟩

/-- Claim C5: on a transport failure that returns a nil response (connection
refused), `Do` does not return the transport error: the diagnostic call
`complain(err, hResp.StatusCode, "")` dereferences the nil response and the
call panics. -/
theorem C5_transport_failure_panics :
    Client.Do wEnv cexClientRefused wReq = DoResult.panicked := rfl

/-- Claim C8: with a non-nil payload and a method rejected by
`http.NewRequest`, the request value is nil and the immediately following
`hReq.Header.Add("Content-Type", "application/json")` dereferences it, so
`Do` panics instead of returning a (response, error) pair. -/
theorem C8_nil_deref_panics :
    Client.Do cexEnvBadMethod wClientEmpty cexReqBadMethod = DoResult.panicked := rfl

theorem buildMsg_headers (env : Env) (req : Request)
    (hs : Option (List (String × String))) :
    buildMsg env { req with headers := hs } = buildMsg env req := by
  cases req
  rfl

theorem handleReply_headers (codec : Codec) (req : Request)
    (hs : Option (List (String × String))) (r : Reply) :
    handleReply codec { req with headers := hs } r = handleReply codec req r := by
  cases req
  rfl

/-- Claim C7: the Headers field of the request descriptor is never read by
`Do`; the outcome of any call is unchanged by any assignment to it, so the
caller-supplied headers are never attached to the outgoing message. -/
theorem C7_headers_never_used (env : Env) (c : Client) (req : Request)
    (hs : Option (List (String × String))) :
    Client.Do env c { req with headers := hs } = Client.Do env c req := by
  simp only [Client.Do]
  have h1 : applyDefaultError c { req with headers := hs } =
      { applyDefaultError c req with headers := hs } := by
    unfold applyDefaultError
    by_cases he : req.error = Val.null <;> simp [he]
  rw [h1, buildMsg_headers]
  cases hb : buildMsg env (applyDefaultError c req) with
  | failed e => rfl
  | panicked => rfl
  | built hReq =>
    cases ht : c.transport hReq with
    | success r => simp [handleReply_headers]
    | failure e pr => rfl

theorem handleReply_timestamp_zero (codec : Codec) (req : Request) (r : Reply)
    (resp : Response) (h : (handleReply codec req r).1 = some resp) :
    resp.timestamp = 0 := by
  simp only [handleReply] at h
  split at h
  · simp at h
    rw [← h]
  · split at h
    · simp at h
      rw [← h]
    · split at h
      · simp at h
        rw [← h]
      · simp at h
        rw [← h]

/-- Claim C10: the timestamp field of every response descriptor returned by
`Do` is the zero time, independent of the clock: the code never assigns the
Timestamp field it documents as the time the request was executed. -/
theorem C10_timestamp_never_recorded (env : Env) (c : Client) (req : Request)
    (resp : Response) (e : Option String)
    (h : Client.Do env c req = DoResult.ret (some resp) e) :
    resp.timestamp = 0 := by
  simp only [Client.Do] at h
  cases hb : buildMsg env (applyDefaultError c req) <;> rw [hb] at h
  · simp at h
  · simp at h
  · rename_i hReq
    simp only [] at h
    cases ht : c.transport hReq <;> rw [ht] at h
    · simp at h
      exact handleReply_timestamp_zero env.codec (applyDefaultError c req) _ resp h.1
    · rename_i e2 pr
      cases pr <;> simp at h

/-- The response value returned on a status-200 empty-body exchange by the
concrete fixtures. -/
def wRespEmpty : Response :=
  { status := 200, timestamp := 0, result := Val.null, error := Val.null,
    rawText := "", request := none }

/-- Witness for C10_timestamp_never_recorded: a concrete completed exchange
at clock reading 42 whose response carries timestamp 0. -/
theorem C10_timestamp_never_recorded_witness :
    Client.Do wEnv wClientEmpty wReq = DoResult.ret (some wRespEmpty) none ∧
    wRespEmpty.timestamp = 0 :=
  ⟨rfl, C10_timestamp_never_recorded wEnv wClientEmpty wReq wRespEmpty none rfl⟩

/-- A reply with status 200 and an empty body. -/
def wReplyEmpty : Reply := { status := 200, bodyErr := none, body := "" }

/-- A reply with status 200 and a non-empty body. -/
def wReplyOk : Reply := { status := 200, bodyErr := none, body := "ok" }

/-- Claim C6: on a reply whose body read succeeded and is empty, no decode is
attempted, both destinations are returned untouched, the raw text is the
empty string, the status is carried through, and no error is returned. -/
theorem C6_empty_body_short_circuit (codec : Codec) (req : Request) (r : Reply)
    (hread : r.bodyErr = none) (hempty : r.body = "") :
    handleReply codec req r =
      (some { status := r.status, timestamp := 0, result := req.result,
              error := req.error, rawText := "", request := none }, none) := by
  simp [handleReply, hread, hempty]

/-- Witness for C6_empty_body_short_circuit at a concrete reply. -/
theorem C6_empty_body_short_circuit_witness :
    wReplyEmpty.bodyErr = none ∧ wReplyEmpty.body = "" ∧
    handleReply wCodec wReq wReplyEmpty =
      (some { status := wReplyEmpty.status, timestamp := 0, result := wReq.result,
              error := wReq.error, rawText := "", request := none }, none) :=
  ⟨rfl, rfl, C6_empty_body_short_circuit wCodec wReq wReplyEmpty rfl rfl⟩

/-- Claim C2: on a reply with a non-empty body, a status in the range
[200,300) routes the decode to the success destination and leaves the error
destination untouched; a status outside the range routes the decode to the
error destination and leaves the success destination untouched; on every such
call at least one of the two destinations keeps its incoming value. -/
theorem C2_status_selects_destination (codec : Codec) (req : Request) (r : Reply)
    (hread : r.bodyErr = none) (hne : r.body ≠ "") :
    ∃ resp : Response, (handleReply codec req r).1 = some resp ∧
      ((200 ≤ r.status ∧ r.status < 300) →
        resp.error = req.error ∧
        resp.result = (Client.unmarshal codec r.body req.result).1) ∧
      (¬(200 ≤ r.status ∧ r.status < 300) →
        resp.result = req.result ∧
        resp.error = (Client.unmarshal codec r.body req.error).1) ∧
      (resp.result = req.result ∨ resp.error = req.error) := by
  by_cases hs : 200 ≤ r.status ∧ r.status < 300
  · refine ⟨⟨r.status, 0, (Client.unmarshal codec r.body req.result).1, req.error,
        r.body, none⟩, ?_, ?_, ?_, ?_⟩
    · simp [handleReply, hread, hne, hs]
    · intro
      exact ⟨rfl, rfl⟩
    · intro hc
      exact absurd hs hc
    · right
      rfl
  · refine ⟨⟨r.status, 0, req.result, (Client.unmarshal codec r.body req.error).1,
        r.body, none⟩, ?_, ?_, ?_, ?_⟩
    · simp [handleReply, hread, hne, hs]
    · intro hc
      exact absurd hc hs
    · intro
      exact ⟨rfl, rfl⟩
    · left
      rfl

/-- Witness for C2_status_selects_destination at a concrete reply. -/
theorem C2_status_selects_destination_witness :
    wReplyOk.bodyErr = none ∧ wReplyOk.body ≠ "" ∧
    (∃ resp : Response, (handleReply wCodec wReq wReplyOk).1 = some resp ∧
      ((200 ≤ wReplyOk.status ∧ wReplyOk.status < 300) →
        resp.error = wReq.error ∧
        resp.result = (Client.unmarshal wCodec wReplyOk.body wReq.result).1) ∧
      (¬(200 ≤ wReplyOk.status ∧ wReplyOk.status < 300) →
        resp.result = wReq.result ∧
        resp.error = (Client.unmarshal wCodec wReplyOk.body wReq.error).1) ∧
      (resp.result = wReq.result ∨ resp.error = wReq.error)) :=
  ⟨rfl, by decide, C2_status_selects_destination wCodec wReq wReplyOk rfl (by decide)⟩

/-- A client whose transport succeeds with status 404 and a non-empty body,
and which carries a default error-destination template. -/
def wClient404 : Client :=
  { transport := fun _ =>
      TransportResult.success { status := 404, bodyErr := none, body := "oops" }
    defaultError := Val.vstr "default-template" }

/-- The transport message built by the fixtures for the plain GET request. -/
def wHReq404 : HttpRequest :=
  { method := "GET", url := "http://api.test/items",
    header := [("Accept", "application/json")], body := none, basicAuth := none }

/-- The 404 reply produced by the wClient404 transport. -/
def wReply404 : Reply := { status := 404, bodyErr := none, body := "oops" }

/-- Claim C9: when the descriptor's error destination is nil, `Do`
substitutes the client's configured default error destination before
resolving the response, so on an error-status reply with a non-empty body the
returned error value is the result of decoding into the default error
destination. -/
theorem C9_default_error_substituted (env : Env) (c : Client) (req : Request)
    (hReq : HttpRequest) (r : Reply)
    (hnull : req.error = Val.null)
    (hb : buildMsg env (applyDefaultError c req) = BuildOut.built hReq)
    (ht : c.transport hReq = TransportResult.success r)
    (hread : r.bodyErr = none) (hne : r.body ≠ "")
    (hstat : ¬(200 ≤ r.status ∧ r.status < 300)) :
    ∃ resp e, Client.Do env c req = DoResult.ret (some resp) e ∧
      resp.error = (Client.unmarshal env.codec r.body c.defaultError).1 := by
  have herr : (applyDefaultError c req).error = c.defaultError := by
    simp [applyDefaultError, hnull]
  refine ⟨⟨r.status, 0, (applyDefaultError c req).result,
      (Client.unmarshal env.codec r.body c.defaultError).1, r.body, none⟩,
    (Client.unmarshal env.codec r.body c.defaultError).2, ?_, rfl⟩
  simp only [Client.Do]
  rw [hb]
  simp only []
  rw [ht]
  simp only []
  simp [handleReply, hread, hne, hstat, herr]

/-- Witness for C9_default_error_substituted at concrete fixtures. -/
theorem C9_default_error_substituted_witness :
    wReq.error = Val.null ∧
    buildMsg wEnv (applyDefaultError wClient404 wReq) = BuildOut.built wHReq404 ∧
    wClient404.transport wHReq404 = TransportResult.success wReply404 ∧
    wReply404.bodyErr = none ∧ wReply404.body ≠ "" ∧
    ¬(200 ≤ wReply404.status ∧ wReply404.status < 300) ∧
    (∃ resp e, Client.Do wEnv wClient404 wReq = DoResult.ret (some resp) e ∧
      resp.error = (Client.unmarshal wEnv.codec wReply404.body wClient404.defaultError).1) :=
  ⟨rfl, rfl, rfl, rfl, by decide, by decide,
    C9_default_error_substituted wEnv wClient404 wReq wHReq404 wReply404
      rfl rfl rfl rfl (by decide) (by decide)⟩

theorem Values.get_set_self (vs : Values) (k v : String) :
    Values.get (Values.set vs k v) k = [v] := by
  induction vs with
  | nil => simp [Values.set, Values.get]
  | cons p rest ih =>
    obtain ⟨k', vls⟩ := p
    by_cases h : k' = k
    · simp [Values.set, h, Values.get]
    · simp [Values.set, h, Values.get, ih]

theorem Values.get_set_other (vs : Values) (k k' v : String) (h : k' ≠ k) :
    Values.get (Values.set vs k' v) k = Values.get vs k := by
  induction vs with
  | nil => simp [Values.set, Values.get, h]
  | cons p rest ih =>
    obtain ⟨k0, vls⟩ := p
    by_cases h0 : k0 = k'
    · subst h0
      simp [Values.set, Values.get, h]
    · simp [Values.set, h0, Values.get, ih]

theorem mergeParams_get_of_not_mem (vals : Values) (ps : List (String × String))
    (k : String) (h : k ∉ ps.map Prod.fst) :
    Values.get (mergeParams vals ps) k = Values.get vals k := by
  induction ps generalizing vals with
  | nil => rfl
  | cons p rest ih =>
    rw [List.map_cons, List.mem_cons, not_or] at h
    have hunfold : mergeParams vals (p :: rest) =
        mergeParams (Values.set vals p.1 p.2) rest := rfl
    rw [hunfold, ih _ h.2]
    exact Values.get_set_other vals k p.1 p.2 (fun he => h.1 he.symm)

theorem mergeParams_get_of_mem (ps : List (String × String)) :
    ∀ (vals : Values) (k v : String), (ps.map Prod.fst).Nodup → (k, v) ∈ ps →
      Values.get (mergeParams vals ps) k = [v] := by
  induction ps with
  | nil =>
    intro vals k v _ hm
    cases hm
  | cons p rest ih =>
    intro vals k v hnd hm
    rw [List.map_cons, List.nodup_cons] at hnd
    have hunfold : mergeParams vals (p :: rest) =
        mergeParams (Values.set vals p.1 p.2) rest := rfl
    rw [hunfold]
    rcases List.mem_cons.mp hm with h1 | h2
    · have hp : p = (k, v) := h1.symm
      subst hp
      rw [mergeParams_get_of_not_mem _ _ _ (by simpa using hnd.1)]
      exact Values.get_set_self vals k v
    · exact ih (Values.set vals p.1 p.2) k v hnd.2 h2

/-- The URL of the spec's GET scenario, with an empty raw query. -/
def wUrlItems : URL := { base := "http://api.test/items", rawQuery := "" }

/-- Claim C3: for a GET request with a supplied parameter mapping (distinct
keys), the final URL's query string is the re-encoding of the URL's parsed
query merged with the supplied parameters, and in that merged key/value set
every caller-supplied key maps to exactly its caller-supplied value,
overwriting any same-named key already present; for any non-GET method the
URL is returned untouched, so the supplied parameters never enter it. -/
theorem C3_params_only_for_get (u : URL) (ps : List (String × String)) (k v : String)
    (hnd : (ps.map Prod.fst).Nodup) (hm : (k, v) ∈ ps) :
    (applyParams "GET" (some ps) u).rawQuery
        = Values.encode (mergeParams (parseQuery u.rawQuery) ps) ∧
    Values.get (mergeParams (parseQuery u.rawQuery) ps) k = [v] ∧
    ∀ m, m ≠ "GET" → applyParams m (some ps) u = u := by
  refine ⟨?_, ?_, ?_⟩
  · simp [applyParams]
  · exact mergeParams_get_of_mem ps (parseQuery u.rawQuery) k v hnd hm
  · intro m hne2
    simp [applyParams, hne2]

/-- Witness for C3_params_only_for_get on the spec's GET scenario. -/
theorem C3_params_only_for_get_witness :
    (([("q", "shoes")].map Prod.fst).Nodup ∧ ("q", "shoes") ∈ [("q", "shoes")]) ∧
    ((applyParams "GET" (some [("q", "shoes")]) wUrlItems).rawQuery
        = Values.encode (mergeParams (parseQuery wUrlItems.rawQuery) [("q", "shoes")]) ∧
      Values.get (mergeParams (parseQuery wUrlItems.rawQuery) [("q", "shoes")]) "q"
        = ["shoes"] ∧
      ∀ m, m ≠ "GET" → applyParams m (some [("q", "shoes")]) wUrlItems = wUrlItems) :=
  ⟨⟨by decide, by decide⟩,
    C3_params_only_for_get wUrlItems [("q", "shoes")] "q" "shoes" (by decide) (by decide)⟩

/-- Sanity check of the query model on the spec's scenario: the rebuilt query
string for the items URL with parameter q=shoes is exactly q=shoes. -/
theorem applyParams_scenario :
    (applyParams "GET" (some [("q", "shoes")]) wUrlItems).rawQuery = "q=shoes" := by
  decide

theorem finishHeaders_body (req : Request) (hReq : HttpRequest) :
    (finishHeaders req hReq).body = hReq.body := by
  unfold finishHeaders
  cases req.userinfo <;> dsimp only [] <;> split <;> rfl

theorem finishHeaders_header_mem (req : Request) (hReq : HttpRequest)
    (p : String × String) (h : p ∈ hReq.header) :
    p ∈ (finishHeaders req hReq).header := by
  unfold finishHeaders
  cases req.userinfo <;> dsimp only [] <;> split <;> simp [Header.add, h]

/-- Claim C4: when URL parsing and method validation succeed, a descriptor
with a non-nil payload whose JSON encoding is b yields an outgoing message
whose body is exactly b and whose headers carry Content-Type:
application/json, and a descriptor with a nil payload yields an outgoing
message with no body. -/
theorem C4_payload_body (env : Env) (req : Request) (u0 : URL) (b : String)
    (h1 : env.parseUrl req.url = some u0)
    (h2 : env.methodOk req.method = true) :
    (req.data ≠ Val.null → env.codec.marshal req.data = some b →
      ∃ hReq, buildMsg env req = BuildOut.built hReq ∧ hReq.body = some b ∧
        ("Content-Type", "application/json") ∈ hReq.header) ∧
    (req.data = Val.null →
      ∃ hReq, buildMsg env req = BuildOut.built hReq ∧ hReq.body = none) := by
  constructor
  · intro hd hm
    refine ⟨finishHeaders req
        (HttpRequest.addHeader
          ⟨req.method, (applyParams req.method req.params u0).renderString, [], some b, none⟩
          "Content-Type" "application/json"), ?_, ?_, ?_⟩
    · simp [buildMsg, h1, hd, hm, newRequest, h2]
    · rw [finishHeaders_body]
      rfl
    · refine finishHeaders_header_mem _ _ _ ?_
      simp [HttpRequest.addHeader, Header.add]
  · intro hd
    refine ⟨finishHeaders req
        ⟨req.method, (applyParams req.method req.params u0).renderString, [], none, none⟩,
        ?_, ?_⟩
    · simp [buildMsg, h1, hd, newRequest, h2]
    · rw [finishHeaders_body]

/-- A POST descriptor carrying a payload. -/
def wReqPost : Request :=
  { wReq with method := "POST", data := Val.vstr "payload" }

/-- Witness for C4_payload_body at a concrete POST descriptor with payload. -/
theorem C4_payload_body_witness :
    (wEnv.parseUrl wReqPost.url = some wUrlItems ∧
      wEnv.methodOk wReqPost.method = true) ∧
    ((wReqPost.data ≠ Val.null → wEnv.codec.marshal wReqPost.data = some "enc" →
      ∃ hReq, buildMsg wEnv wReqPost = BuildOut.built hReq ∧ hReq.body = some "enc" ∧
        ("Content-Type", "application/json") ∈ hReq.header) ∧
    (wReqPost.data = Val.null →
      ∃ hReq, buildMsg wEnv wReqPost = BuildOut.built hReq ∧ hReq.body = none)) :=
  ⟨⟨rfl, rfl⟩, C4_payload_body wEnv wReqPost wUrlItems "enc" rfl rfl⟩

end Restclient
